import Mathlib

/-!
Verification of the SporeNet account-summarizer pipeline.

This file gives a shallow embedding, in Lean, of the extraction-and-selection
core of the repository:

* `src/scripts/account_summarizer_v3.py` (namespace `V3`): tokenizer, Jaccard
  deduplication, TF-IDF ranking, sentence segmentation with abbreviation
  merging, equal-quota canonical sampling, date extraction.
* `src/account_summarizer.py` (namespace `Summarizer`): sentence segmentation
  without abbreviation handling, round-robin `balanced_sample`, executive
  summary loop, date extraction.
* `src/scripts/account_summarizer.py` (namespace `Orbital`): its own
  tokenizer (dot allowed inside tokens, no length filter) and TF-IDF ranker
  that skips sentences with no tokens.

Python lists become Lean `List`s, Python float scores become `ℚ` (every score
the scripts compute is a ratio of integers), and Python's in-place mutation of
`balanced_sample`'s argument is made explicit by returning the final state of
the pools.  True division of two machine integers `a / b` (with `b ≠ 0`)
is modelled by `mkRat a b`; the lemma `V3.jaccard_eq_div` checks this against
the `/` of `ℚ`.  Python's stable `list.sort(key=..., reverse=True)` is
modelled by `List.mergeSort` with the reversed comparison, which is the same
stable descending sort.
-/

namespace SporeNet

/-- Word characters of Python's regex `\w`, used by the `\b` anchors of the
date pattern: ASCII letters, digits and underscore (the corpus-facing scripts
only ever match ASCII here). -/
def isWordChar (c : Char) : Bool :=
  ('a' ≤ c && c ≤ 'z') || ('A' ≤ c && c ≤ 'Z') || ('0' ≤ c && c ≤ '9') || c == '_'

/-- ASCII whitespace recognised by Python's `\s` and `str.strip` (the
non-ASCII whitespace code points do not occur in the embedded scenarios). -/
def isWs (c : Char) : Bool :=
  c == ' ' || c == '\t' || c == '\n' || c == '\r' || c == '\x0b' || c == '\x0c'

/-- ASCII uppercase letter test, by code point. -/
def isAsciiUpper (c : Char) : Bool :=
  65 ≤ c.toNat && c.toNat ≤ 90

/-- Lowercasing of one character as Python's `str.lower` performs it on the
ASCII range (the only range the tokenizers' character classes accept). -/
def pyLower (c : Char) : Char :=
  if isAsciiUpper c then Char.ofNat (c.toNat + 32) else c

/-- Lowercase a whole string, character by character. -/
def pyLowerStr (s : String) : String :=
  String.mk (s.data.map pyLower)

/-- Strip leading and trailing whitespace, as Python's `str.strip()`. -/
def pyStrip (s : String) : String :=
  String.mk (((s.data.dropWhile isWs).reverse.dropWhile isWs).reverse)

/-- Worker for `runs`: `cur` holds the characters of the run currently being
read, in reverse order. -/
def runsGo (p : Char → Bool) : List Char → List Char → List (List Char)
  | cur, [] => if cur.isEmpty then [] else [cur.reverse]
  | cur, c :: cs =>
    if p c then runsGo p (c :: cur) cs
    else if cur.isEmpty then runsGo p [] cs else cur.reverse :: runsGo p [] cs

/-- Maximal runs of characters satisfying `p`, in order: the semantics of
Python's `re.findall` on a regex of the form `[class]+`. -/
def runs (p : Char → Bool) (l : List Char) : List (List Char) :=
  runsGo p [] l

/-- Worker for `collapseWs`: the flag records whether the previous character
belonged to a whitespace run that has already emitted its single space. -/
def collapseGo : Bool → List Char → List Char
  | _, [] => []
  | inRun, c :: cs =>
    if isWs c then
      if inRun then collapseGo true cs else ' ' :: collapseGo true cs
    else c :: collapseGo false cs

/-- Replace every maximal whitespace run by a single space: the semantics of
Python's `re.sub(r"\s+", " ", text)`. -/
def collapseWs (l : List Char) : List Char :=
  collapseGo false l

/-- Whitespace normalisation shared by all three `split_sentences`
implementations: `re.sub(r"\s+", " ", text).strip()`. -/
def pyNormWs (text : String) : String :=
  pyStrip (String.mk (collapseWs text.data))

/-- Whitespace-separated words of a string, as Python's argumentless
`str.split()` (empty pieces discarded). -/
def pyWords (s : String) : List String :=
  (runs (fun c => !isWs c) s.data).map fun cs => String.mk cs

/-- Sentence-ending punctuation of the lookbehind `(?<=[.!?])`. -/
def isEnder (c : Char) : Bool :=
  c == '.' || c == '!' || c == '?'

/-- Characters accepted by the lookahead `(?=[A-Z0-9\[\(])`. -/
def isStarter (c : Char) : Bool :=
  ('A' ≤ c && c ≤ 'Z') || ('0' ≤ c && c ≤ '9') || c == '[' || c == '('

/-- Splitting on the boundary regex `(?<=[.!?])\s+(?=[A-Z0-9\[\(])` of all
three scripts, specialised to whitespace-normalised input (where every
whitespace run is a single space): a space splits exactly when the previous
character is sentence-ending punctuation and the next one is an uppercase
letter, digit or opening bracket.  `acc` holds the current segment in
reverse. -/
def boundarySplit : List Char → List Char → List (List Char)
  | acc, [] => [acc.reverse]
  | acc, c :: rest =>
    if c == ' ' then
      match acc, rest with
      | p :: _, n :: _ =>
        if isEnder p && isStarter n then acc.reverse :: boundarySplit [] rest
        else boundarySplit (c :: acc) rest
      | _, _ => boundarySplit (c :: acc) rest
    else boundarySplit (c :: acc) rest

/-- Tentative sentence segments of a raw text: whitespace-normalise, then cut
at every boundary of the shared sentence-split regex. -/
def tentativeSegs (text : String) : List String :=
  (boundarySplit [] (pyNormWs text).data).map fun cs => String.mk cs

/-- Outcome of the external file read underlying the text loaders: the file
was read and decoded (`ok`), the OS-level open or read raised (`OSError`), or
UTF-8 decoding of the bytes raised (`UnicodeDecodeError`). -/
inductive ReadOutcome : Type
  | ok (raw : String)
  | osError
  | decodeError

namespace V3

/-- Stop-word set shared verbatim by `src/scripts/account_summarizer_v3.py`
and `src/account_summarizer.py` (`STOPWORDS`); apostrophes are written with
the escape `\x27`. -/
def STOPWORDS : List String := [
  "a", "about", "above", "after", "again", "against", "all", "also", "am", "an", "and", "any",
  "are", "aren\x27t", "as", "at", "be", "because", "been", "before", "being", "below", "between",
  "both", "but", "by", "can", "can\x27t", "cannot", "could", "couldn\x27t", "did", "didn\x27t",
  "do", "does", "doesn\x27t", "doing", "don\x27t", "down", "during", "each", "few", "for",
  "from", "further", "had", "hadn\x27t", "has", "hasn\x27t", "have", "haven\x27t", "having",
  "he", "he\x27d", "he\x27ll", "he\x27s", "her", "here", "here\x27s", "hers", "herself", "him",
  "himself", "his", "how", "how\x27s", "i", "i\x27d", "i\x27ll", "i\x27m", "i\x27ve", "if", "in",
  "into", "is", "isn\x27t", "it", "it\x27s", "its", "itself", "let\x27s", "me", "more", "most",
  "mustn\x27t", "my", "myself", "no", "nor", "not", "now", "of", "off", "on", "once", "only",
  "or", "other", "ought", "our", "ours", "ourselves", "out", "over", "own", "same", "shan\x27t",
  "she", "she\x27d", "she\x27ll", "she\x27s", "should", "shouldn\x27t", "so", "some", "such",
  "than", "that", "that\x27s", "the", "their", "theirs", "them", "themselves", "then", "there",
  "there\x27s", "these", "they", "they\x27d", "they\x27ll", "they\x27re", "they\x27ve", "this",
  "those", "through", "to", "too", "under", "until", "up", "very", "was", "wasn\x27t", "we",
  "we\x27d", "we\x27ll", "we\x27re", "we\x27ve", "were", "weren\x27t", "what", "what\x27s",
  "when", "when\x27s", "where", "where\x27s", "which", "while", "who", "who\x27s", "whom", "why",
  "why\x27s", "with", "won\x27t", "would", "wouldn\x27t", "you", "you\x27d", "you\x27ll",
  "you\x27re", "you\x27ve", "your", "yours", "yourself", "yourselves"]

/-- Character class of the token regex `[A-Za-z0-9_+\-\/]+` of
`account_summarizer_v3.py` and `account_summarizer.py`. -/
def isTokenChar (c : Char) : Bool :=
  ('A' ≤ c && c ≤ 'Z') || ('a' ≤ c && c ≤ 'z') || ('0' ≤ c && c ≤ '9') ||
    c == '_' || c == '+' || c == '-' || c == '/'

/-- The `tokenize` of `account_summarizer_v3.py` (lines 103-105), identical to
the one of `src/account_summarizer.py` (lines 300-304): lowercase the text,
take the maximal runs of token characters, and drop stop-words and
single-character tokens. -/
def tokenize (text : String) : List String :=
  ((runs isTokenChar (pyLowerStr text).data).map fun cs => String.mk cs).filter
    fun t => decide (t ∉ STOPWORDS ∧ 1 < t.length)

/-- The `jaccard` of `account_summarizer_v3.py` (lines 107-110): token-set
similarity `len(sa & sb) / max(1, len(sa | sb))`, with similarity `1.0` when
both token sets are empty.  `mkRat a b` is the true division `a / b` of the
two integers (see `jaccard_eq_div`). -/
def jaccard (a b : List String) : ℚ :=
  if a.toFinset = ∅ ∧ b.toFinset = ∅ then 1
  else mkRat ((a.toFinset ∩ b.toFinset).card : ℤ) (max 1 (a.toFinset ∪ b.toFinset).card)

/-- Check of the division model: `mkRat` in `jaccard` is division in `ℚ`. -/
theorem jaccard_eq_div (a b : List String) (h : ¬(a.toFinset = ∅ ∧ b.toFinset = ∅)) :
    jaccard a b
      = ((a.toFinset ∩ b.toFinset).card : ℚ) / ((max 1 (a.toFinset ∪ b.toFinset).card : ℕ) : ℚ) := by
  rw [jaccard, if_neg h, Rat.mkRat_eq_div]
  push_cast
  ring

/-- Jaccard similarity is symmetric. -/
theorem jaccard_comm (a b : List String) : jaccard a b = jaccard b a := by
  unfold jaccard
  by_cases h : a.toFinset = ∅ ∧ b.toFinset = ∅
  · rw [if_pos h, if_pos ⟨h.2, h.1⟩]
  · rw [if_neg h, if_neg (fun hc => h ⟨hc.2, hc.1⟩), Finset.inter_comm, Finset.union_comm]

/-- Python's `max(l or [0.0])`: the maximum of a list of similarity values,
`0` when the list is empty. -/
def pyListMax : List ℚ → ℚ
  | [] => 0
  | x :: xs => xs.foldl max x

/-- The scored list built by `rank_tfidf` (lines 114-124) before sorting:
each sentence is paired with the sum, over its distinct tokens, of
`term_count * (1 + N / (1 + df))`, where `N` is the bucket size and
`df t` counts the tokenized sentences containing `t`.  Python iterates over
the keys of the `tf` Counter, which are exactly the distinct tokens; the `idf`
dictionary lookup always hits because every token of a sentence occurs in at
least that sentence.  The division of the two integers is `mkRat`. -/
def tfScored (sentences : List String) : List (String × ℚ) :=
  (sentences.zip (sentences.map tokenize)).map fun p =>
    (p.1, (p.2.dedup.map fun t =>
      (p.2.count t : ℚ) *
        (1 + mkRat (sentences.length : ℤ)
          (1 + ((sentences.map tokenize).filter fun toks => decide (t ∈ toks)).length))).sum)

/-- The `rank_tfidf` of `account_summarizer_v3.py` (lines 112-126): empty
input gives an empty list, otherwise the scored sentences sorted stably by
descending score (`scored.sort(key=..., reverse=True)`). -/
def rank_tfidf (sentences : List String) : List (String × ℚ) :=
  if sentences.isEmpty then []
  else (tfScored sentences).mergeSort fun a b => decide (b.2 ≤ a.2)

/-- Modelled from the spec: `df(token)` is the number of bucket sentences
containing the token at least once. -/
def dfSpec (sentences : List String) (t : String) : ℕ :=
  (sentences.filter fun s => decide (t ∈ tokenize s)).length

/-- Modelled from the spec: `score(sentence)` is the sum over the sentence's
token multiset of `term_count(token) * (1 + N / (1 + df(token)))` with `N` the
bucket size — equivalently the sum over its distinct tokens weighted by their
multiplicities. -/
def tfidfScoreSpec (sentences : List String) (s : String) : ℚ :=
  ((tokenize s).dedup.map fun t =>
    ((tokenize s).count t : ℚ) *
      (1 + mkRat (sentences.length : ℤ) (1 + dfSpec sentences t))).sum

/-- Abbreviation list `ABBREV` of `account_summarizer_v3.py` (line 53). -/
def ABBREV : List String :=
  ["e.g.", "i.e.", "etc.", "v.", "v1.1.8", "mr.", "mrs.", "dr.", "prof.", "inc.", "ltd.", "co."]

/-- Lowercased last whitespace-word of a sentence: Python's
`out[-1].split()[-1].lower()`. -/
def lastWordLower (s : String) : String :=
  pyLowerStr ((pyWords s).getLastD "")

/-- One iteration of the accumulation loop of `split_sentences`
(lines 95-100 of `account_summarizer_v3.py`): strip the segment, drop it if
shorter than 10 characters, append it to the previous sentence when that
sentence ends in a known abbreviation, and otherwise emit it as a new
sentence. -/
def mergeStep (out : List String) (seg : String) : List String :=
  if (pyStrip seg).length < 10 then out
  else
    match out with
    | [] => [pyStrip seg]
    | _ :: _ =>
      if lastWordLower (out.getLastD "") ∈ ABBREV then
        out.dropLast ++ [out.getLastD "" ++ " " ++ pyStrip seg]
      else out ++ [pyStrip seg]

/-- The `split_sentences` of `account_summarizer_v3.py` (lines 90-101). -/
def split_sentences (text : String) : List String :=
  if pyNormWs text = "" then []
  else (tentativeSegs text).foldl mergeStep []

/-- Inner loop of the quota-based canonical selection (lines 170-178 of
`account_summarizer_v3.py`), walking one domain's ranked pool.  The state is
`(canonical, canonical_tokens, quota[dom])`: a candidate with no tokens is
skipped; otherwise its maximal Jaccard similarity to the accepted tokens is
computed, and the candidate is accepted exactly when that similarity is at
most the threshold and the domain still has quota. -/
def quotaInner (thr : ℚ) :
    List (String × ℚ) → List String → List (List String) → ℕ →
      List String × List (List String) × ℕ
  | [], canonical, ctoks, q => (canonical, ctoks, q)
  | (s, _) :: rest, canonical, ctoks, q =>
    if (tokenize s).isEmpty then quotaInner thr rest canonical ctoks q
    else
      if pyListMax (ctoks.map fun t => jaccard (tokenize s) t) ≤ thr ∧ 0 < q then
        quotaInner thr rest (canonical ++ [s]) (ctoks ++ [tokenize s]) (q - 1)
      else quotaInner thr rest canonical ctoks q

/-- Outer loop of the canonical selection (line 170): process the domains in
order, threading the shared `quota` dictionary (modelled as a function that
the inner loop updates at the processed domain only, exactly as the Python
dictionary is). -/
def quotaOuter (thr : ℚ) (ranked : List (String × List (String × ℚ))) :
    List String → List String → List (List String) → (String → ℕ) →
      List String × List (List String) × (String → ℕ)
  | [], canonical, ctoks, quota => (canonical, ctoks, quota)
  | dom :: rest, canonical, ctoks, quota =>
    quotaOuter thr ranked rest
      (quotaInner thr ((ranked.lookup dom).getD []) canonical ctoks (quota dom)).1
      (quotaInner thr ((ranked.lookup dom).getD []) canonical ctoks (quota dom)).2.1
      fun d =>
        if d = dom then (quotaInner thr ((ranked.lookup dom).getD []) canonical ctoks (quota dom)).2.2
        else quota d

/-- The canonical sentence list of `build_report` in
`account_summarizer_v3.py` (lines 166-178 and 199): every domain starts with
quota `target // len(domain_order)`, the domains are processed in order
through the dedup-and-quota loop, and the result is truncated to the target
(`canonical[:target_sentences]`). -/
def equalQuotaCanonical (order : List String) (ranked : List (String × List (String × ℚ)))
    (target : ℕ) (thr : ℚ) : List String :=
  (quotaOuter thr ranked order [] [] fun _ => target / order.length).1.take target

/-- The `load_text` of `account_summarizer_v3.py` (lines 74-88), as a
function of the read outcome: the whole body sits under a bare
`except: return ""`, so an OS-level failure and a decoding failure both yield
the empty string; a successfully read plain-text file is returned as-is.
(The `messages` extraction for successfully read JSON files is not needed by
any claim.) -/
def load_text : ReadOutcome → String
  | .ok raw => raw
  | .osError => ""
  | .decodeError => ""

/-- The corpus concatenation of `build_report` (line 149):
`"\n\n".join([t for t in texts if t])` — empty texts are dropped before
joining. -/
def corpus (texts : List String) : String :=
  String.intercalate "\n\n" (texts.filter fun t => decide (t ≠ ""))

end V3

/-- Executive-summary loop shared by `build_report` of
`src/account_summarizer.py` (lines 429-435) and of
`account_summarizer_v3.py` (lines 179-183): walk the domains in order,
emit `"dom: sentence"` for the top (up to) 2 ranked sentences of each domain,
and stop as soon as 10 or more entries have been collected. -/
def execLoop (ranked : List (String × List (String × ℚ))) :
    List String → List String → List String
  | [], acc => acc
  | dom :: rest, acc =>
    let acc' := acc ++ (((ranked.lookup dom).getD []).take 2).map fun p => dom ++ ": " ++ p.1
    if 10 ≤ acc'.length then acc' else execLoop ranked rest acc'

/-- Month alternative `(0[1-9]|1[0-2])` of the date regex. -/
def monthOk (a b : Char) : Bool :=
  (a == '0' && '1' ≤ b && b ≤ '9') || (a == '1' && '0' ≤ b && b ≤ '2')

/-- Day alternative `(0[1-9]|[12]\d|3[01])` of the date regex. -/
def dayOk (a b : Char) : Bool :=
  (a == '0' && '1' ≤ b && b ≤ '9') || ((a == '1' || a == '2') && ('0' ≤ b && b ≤ '9')) ||
    (a == '3' && (b == '0' || b == '1'))

/-- Separator class of the date regex: a hyphen or a slash. -/
def isDateSep (c : Char) : Bool :=
  c == '-' || c == '/'

/-- Attempt to match the date pattern of `DATE_PATTERN` — year `20\d\d`, a
separator, month `0[1-9]|1[0-2]`, a separator, day `0[1-9]|[12]\d|3[01]`,
closed by a `\b` anchor — at the head of the character list (the leading `\b`
is checked by the caller); on success return the normalised `YYYY-MM-DD`
string.  A match always spans exactly 10 characters. -/
def tryDate : List Char → Option String
  | y1 :: y2 :: y3 :: y4 :: s1 :: m1 :: m2 :: s2 :: d1 :: d2 :: rest =>
    if y1 == '2' && y2 == '0' && ('0' ≤ y3 && y3 ≤ '9') && ('0' ≤ y4 && y4 ≤ '9') &&
        isDateSep s1 && monthOk m1 m2 && isDateSep s2 && dayOk d1 d2 &&
        (match rest with | [] => true | c :: _ => !isWordChar c) then
      some (String.mk [y1, y2, y3, y4, '-', m1, m2, '-', d1, d2])
    else none
  | _ => none

/-- Scanner for `re.findall` with the date pattern: try the pattern at every
position whose left context satisfies `\b` (tracked by `prevWord`, whether the
previous character is a word character), and resume after the end of each
match.  The fuel argument is the length of the remaining text, which bounds
the number of steps. -/
def scanGo : ℕ → List Char → Bool → List String
  | 0, _, _ => []
  | _ + 1, [], _ => []
  | fuel + 1, c :: cs, prevWord =>
    match (if prevWord then none else tryDate (c :: cs)) with
    | some d => d :: scanGo fuel (cs.drop 9) true
    | none => scanGo fuel cs (isWordChar c)

/-- The `extract_dates` of `account_summarizer_v3.py` (lines 140-142): all
matches of the date pattern, normalised to `YYYY-MM-DD`, in text order (the
v3 caller sorts and deduplicates later; `src/account_summarizer.py` line 353
instead returns `sorted(set(...))` of the same matches). -/
def extract_dates (text : String) : List String :=
  scanGo text.data.length text.data false

namespace V3

/-- The executive summary of `build_report` in `account_summarizer_v3.py`
(lines 179-184): the shared loop followed by `exec_points[:10]`. -/
def exec_points (order : List String) (ranked : List (String × List (String × ℚ))) :
    List String :=
  (execLoop ranked order []).take 10

end V3

namespace Summarizer

/-- The `split_sentences` of `src/account_summarizer.py` (lines 276-289):
whitespace-normalise, split at the shared boundary regex, strip every
segment and keep those of length at least 10.  No abbreviation handling. -/
def split_sentences (text : String) : List String :=
  if pyNormWs text = "" then []
  else ((tentativeSegs text).map pyStrip).filter fun s => decide (10 ≤ s.length)

/-- The `rank_sentences` of `src/account_summarizer.py` (lines 307-324):
plain term-frequency scoring against the bucket's token multiset.  When the
bucket yields no tokens at all, the first `top_k` sentences are returned with
score `0.0`; otherwise the scored sentences are stably sorted by descending
score and truncated to `top_k`. -/
def rank_sentences (sentences : List String) (topk : ℕ) : List (String × ℚ) :=
  if ((sentences.map V3.tokenize).flatten).isEmpty then
    (sentences.take topk).map fun s => (s, (0 : ℚ))
  else
    ((sentences.map fun s =>
        (s, ((V3.tokenize s).map
          fun t => (((sentences.map V3.tokenize).flatten).count t : ℚ)).sum)).mergeSort
      fun a b => decide (b.2 ≤ a.2)).take topk

/-- Loop of `balanced_sample` (lines 327-342 of `src/account_summarizer.py`).
The domain-keyed dictionary of ranked pools is modelled by the list of its
values in key order; `pop(0)` becomes `List.set` with the tail, and the final
state of the pools is returned alongside the picked sentences to make the
in-place mutation observable.  The fuel starts at `100001`, enough for the
`index > 100_000` safety break (checked after the increment, as in the
source) to fire first. -/
def bsGo (target : ℕ) :
    ℕ → List (List (String × ℚ)) → ℕ → List String →
      List String × List (List (String × ℚ))
  | 0, pools, _, picked => (picked, pools)
  | fuel + 1, pools, idx, picked =>
    if picked.length < target ∧ pools.any fun p => !p.isEmpty then
      let st :=
        match pools[idx % pools.length]? with
        | some ((s, _) :: rest) => (pools.set (idx % pools.length) rest, picked ++ [s])
        | _ => (pools, picked)
      if 100000 < idx + 1 then (st.2, st.1)
      else bsGo target fuel st.1 (idx + 1) st.2
    else (picked, pools)

/-- The sentences picked by `balanced_sample`: round-robin over the pools
until the target is reached or the pools are exhausted, final `[:target_n]`
truncation included. -/
def balanced_sample (pools : List (List (String × ℚ))) (target : ℕ) : List String :=
  (bsGo target 100001 pools 0 []).1.take target

/-- The state of the pool lists at the moment `balanced_sample` returns: what
the caller's dictionary values look like after the call. -/
def balancedSamplePools (pools : List (List (String × ℚ))) (target : ℕ) :
    List (List (String × ℚ)) :=
  (bsGo target 100001 pools 0 []).2

/-- The executive summary of `build_report` in `src/account_summarizer.py`
(lines 429-435): the shared loop, with no final truncation. -/
def exec_points (order : List String) (ranked : List (String × List (String × ℚ))) :
    List String :=
  execLoop ranked order []

/-- The `load_text_from_file` of `src/account_summarizer.py`
(lines 229-273), as a function of the read outcome: the whole body sits under
`except Exception`, so an OS-level failure and a decoding failure both yield
the empty string (after a stderr diagnostic); a successfully read plain-text
file is returned as-is.  (The `messages` extraction for successfully read
JSON files is not needed by any claim.) -/
def load_text_from_file : ReadOutcome → String
  | .ok raw => raw
  | .osError => ""
  | .decodeError => ""

end Summarizer

namespace Orbital

/-- The `STOPWORDS` set of `src/scripts/account_summarizer.py`
(lines 14-141). -/
def STOPWORDS : List String := [
  "a", "about", "above", "after", "again", "against", "all", "also", "am", "an", "and", "any",
  "are", "as", "at", "be", "because", "been", "before", "being", "below", "between", "both",
  "but", "by", "can", "could", "did", "do", "does", "doing", "down", "during", "each", "few",
  "for", "from", "further", "had", "has", "have", "having", "he", "her", "here", "hers",
  "herself", "him", "himself", "his", "how", "i", "if", "in", "into", "is", "it", "its",
  "itself", "let", "me", "more", "most", "my", "myself", "no", "nor", "not", "now", "of", "off",
  "on", "once", "only", "or", "other", "our", "ours", "ourselves", "out", "over", "own", "same",
  "she", "should", "so", "some", "such", "than", "that", "the", "their", "theirs", "them",
  "themselves", "then", "there", "these", "they", "this", "those", "through", "to", "too",
  "under", "until", "up", "very", "was", "we", "were", "what", "when", "where", "which",
  "while", "who", "whom", "why", "with", "would", "you", "your", "yours", "yourself",
  "yourselves"]

/-- Character class of `TOKEN_RE` in `src/scripts/account_summarizer.py`
(line 144): like the other scripts' class but with the dot included. -/
def isTokenChar (c : Char) : Bool :=
  ('A' ≤ c && c ≤ 'Z') || ('a' ≤ c && c ≤ 'z') || ('0' ≤ c && c ≤ '9') ||
    c == '_' || c == '+' || c == '-' || c == '/' || c == '.'

/-- The `tokenize` of `src/scripts/account_summarizer.py` (lines 285-286):
find the raw-token runs, lowercase each, and drop stop-words.  There is no
minimum-length filter here. -/
def tokenize (text : String) : List String :=
  ((runs isTokenChar text.data).map fun cs => pyLowerStr (String.mk cs)).filter
    fun t => decide (t ∉ STOPWORDS)

/-- The scored list built by `rank_sentences` (lines 289-304) before sorting:
sentences whose tokenization is empty are skipped (`if not tokens: continue`);
the others receive the same TF-IDF score as in v3, relative to this
tokenizer. -/
def tfScored (sentences : List String) : List (String × ℚ) :=
  (sentences.zip (sentences.map tokenize)).filterMap fun p =>
    if p.2.isEmpty then none
    else some (p.1, (p.2.dedup.map fun t =>
      (p.2.count t : ℚ) *
        (1 + mkRat (sentences.length : ℤ)
          (1 + ((sentences.map tokenize).filter fun toks => decide (t ∈ toks)).length))).sum)

/-- The `rank_sentences` of `src/scripts/account_summarizer.py`
(lines 289-306): the scored list, stably sorted by descending score (the
caller truncates to `top_k`). -/
def rank_sentences (sentences : List String) : List (String × ℚ) :=
  (tfScored sentences).mergeSort fun a b => decide (b.2 ≤ a.2)

/-- Modelled from the spec, for this file's tokenizer: `df(token)` is the
number of bucket sentences containing the token at least once. -/
def dfSpec (sentences : List String) (t : String) : ℕ :=
  (sentences.filter fun s => decide (t ∈ tokenize s)).length

/-- Modelled from the spec, for this file's tokenizer: the TF-IDF score of a
sentence within its bucket. -/
def tfidfScoreSpec (sentences : List String) (s : String) : ℚ :=
  ((tokenize s).dedup.map fun t =>
    ((tokenize s).count t : ℚ) *
      (1 + mkRat (sentences.length : ℤ) (1 + dfSpec sentences t))).sum

/-- The `split_sentences` of `src/scripts/account_summarizer.py`
(lines 277-282): strip every boundary segment and keep those of length at
least 12.  No abbreviation handling. -/
def split_sentences (text : String) : List String :=
  if pyNormWs text = "" then []
  else ((tentativeSegs text).map pyStrip).filter fun s => decide (12 ≤ s.length)

/-- The `load_text` of `src/scripts/account_summarizer.py` (lines 246-262),
as a function of the read outcome.  Only `except OSError` guards
`path.read_text(encoding="utf-8")`: an OS-level failure yields the empty
string, but a `UnicodeDecodeError` raised while decoding the bytes is not an
`OSError` and is not caught — the exception propagates out of the loader,
modelled by `none`. -/
def load_text : ReadOutcome → Option String
  | .ok raw => some raw
  | .osError => some ""
  | .decodeError => none

end Orbital

/-! ## Concrete scenario data used by the counterexamples -/

/-- Four domains with three candidates each; the twelve sentences have
pairwise disjoint token sets, so every Jaccard similarity between two of them
is `0`. -/
def quotaDemoRanked : List (String × List (String × ℚ)) :=
  [("A", [("aa01 bb01", 1), ("aa02 bb02", 1), ("aa03 bb03", 1)]),
   ("B", [("aa04 bb04", 1), ("aa05 bb05", 1), ("aa06 bb06", 1)]),
   ("C", [("aa07 bb07", 1), ("aa08 bb08", 1), ("aa09 bb09", 1)]),
   ("D", [("aa10 bb10", 1), ("aa11 bb11", 1), ("aa12 bb12", 1)])]

/-- The twelve candidate sentences of `quotaDemoRanked`, in order. -/
def quotaDemoSents : List String :=
  quotaDemoRanked.flatMap fun p => p.2.map Prod.fst

/-- Six domains whose ranked pools hold 2, 2, 2, 2, 1 and 2 sentences: after
the fifth domain the executive summary holds 9 entries, so the loop continues
and the sixth domain pushes it to 11. -/
def execDemoRanked : List (String × List (String × ℚ)) :=
  [("D1", [("s1a under ten", 1), ("s1b under ten", 1)]),
   ("D2", [("s2a under ten", 1), ("s2b under ten", 1)]),
   ("D3", [("s3a under ten", 1), ("s3b under ten", 1)]),
   ("D4", [("s4a under ten", 1), ("s4b under ten", 1)]),
   ("D5", [("s5a under ten", 1)]),
   ("D6", [("s6a under ten", 1), ("s6b under ten", 1)])]

/-- The domain order of the `execDemoRanked` scenario. -/
def execDemoOrder : List String :=
  ["D1", "D2", "D3", "D4", "D5", "D6"]

/-! ## General lemmas -/

/-- Characters below the surrogate range survive the `Char.ofNat`
round-trip. -/
theorem char_ofNat_toNat_small (n : ℕ) (h : n < 55296) : (Char.ofNat n).toNat = n := by
  unfold Char.ofNat
  rw [dif_pos (Or.inl h)]
  rfl

/-- Lowercasing never produces an ASCII uppercase letter. -/
theorem isAsciiUpper_pyLower (c : Char) : isAsciiUpper (pyLower c) = false := by
  unfold pyLower
  by_cases h : isAsciiUpper c = true
  · rw [if_pos h]
    unfold isAsciiUpper at h ⊢
    simp only [Bool.and_eq_true, decide_eq_true_eq] at h
    have h2 : (Char.ofNat (c.toNat + 32)).toNat = c.toNat + 32 :=
      char_ofNat_toNat_small _ (by omega)
    have h3 : ¬(c.toNat + 32 ≤ 90) := by omega
    simp [h2, h3]
  · rw [if_neg h]
    simpa using h

/-- Every character of every run satisfies any property `q` that holds of the
accumulator's characters and of every `p`-character of the input. -/
theorem runsGo_forall (p : Char → Bool) (q : Char → Prop) :
    ∀ (l cur : List Char), (∀ c ∈ cur, q c) → (∀ c ∈ l, p c = true → q c) →
      ∀ r ∈ runsGo p cur l, ∀ c ∈ r, q c := by
  intro l
  induction l with
  | nil =>
    intro cur hcur _ r hr
    unfold runsGo at hr
    split at hr
    · simp at hr
    · simp only [List.mem_singleton] at hr
      subst hr
      intro c hc
      exact hcur c (List.mem_reverse.mp hc)
  | cons x xs ih =>
    intro cur hcur hl r hr
    unfold runsGo at hr
    by_cases hpx : p x = true
    · rw [if_pos hpx] at hr
      refine ih (x :: cur) ?_ (fun c hc hpc => hl c (List.mem_cons_of_mem x hc) hpc) r hr
      intro c hc
      rcases List.mem_cons.mp hc with rfl | hc
      · exact hl c (List.mem_cons_self c xs) hpx
      · exact hcur c hc
    · rw [if_neg hpx] at hr
      split at hr
      · exact ih [] (by simp) (fun c hc hpc => hl c (List.mem_cons_of_mem x hc) hpc) r hr
      · rcases List.mem_cons.mp hr with rfl | hr
        · intro c hc
          exact hcur c (List.mem_reverse.mp hc)
        · exact ih [] (by simp) (fun c hc hpc => hl c (List.mem_cons_of_mem x hc) hpc) r hr

/-- A pair of a list zipped with its image under `f` relates an element to its
image. -/
theorem mem_zip_map {α β : Type} (f : α → β) :
    ∀ (l : List α) (a : α) (b : β), (a, b) ∈ l.zip (l.map f) → b = f a := by
  intro l
  induction l with
  | nil => simp
  | cons x xs ih =>
    intro a b h
    rw [List.map_cons, List.zip_cons_cons] at h
    rcases List.mem_cons.mp h with h1 | h2
    · rw [Prod.mk.injEq] at h1
      rw [h1.2, h1.1]
    · exact ih a b h2

/-- Filtering the image of a map has the length of filtering the composed
predicate. -/
theorem length_filter_map_eq {α β : Type} (f : α → β) (p : β → Bool) :
    ∀ l : List α, ((l.map f).filter p).length = (l.filter fun a => p (f a)).length := by
  intro l
  induction l with
  | nil => rfl
  | cons x xs ih =>
    simp only [List.map_cons, List.filter]
    by_cases h : p (f x) = true
    · rw [h]
      simpa using ih
    · rw [Bool.not_eq_true] at h
      rw [h]
      exact ih

/-- Every element of a list of rationals is at most its running
`foldl max`. -/
theorem le_foldl_max : ∀ (l : List ℚ) (a : ℚ), a ≤ l.foldl max a ∧ ∀ x ∈ l, x ≤ l.foldl max a := by
  intro l
  induction l with
  | nil => simp
  | cons y ys ih =>
    intro a
    constructor
    · exact le_trans (le_max_left a y) (ih (max a y)).1
    · intro x hx
      rcases List.mem_cons.mp hx with rfl | hx
      · exact le_trans (le_max_right a x) (ih (max a x)).1
      · exact (ih (max a y)).2 x hx

/-- Every element of a list is at most `pyListMax` of the list. -/
theorem le_pyListMax {x : ℚ} : ∀ {l : List ℚ}, x ∈ l → x ≤ V3.pyListMax l := by
  intro l h
  match l with
  | [] => simp at h
  | y :: ys =>
    unfold V3.pyListMax
    rcases List.mem_cons.mp h with rfl | h
    · exact (le_foldl_max ys x).1
    · exact (le_foldl_max ys y).2 x h

/-- Stable descending sort by score produces a non-increasing score list. -/
theorem mergeSort_desc_pairwise (l : List (String × ℚ)) :
    (l.mergeSort fun a b => decide (b.2 ≤ a.2)).Pairwise fun a b => b.2 ≤ a.2 := by
  have h := @List.sorted_mergeSort (String × ℚ) (fun a b => decide (b.2 ≤ a.2))
    (fun a b c hab hbc => by
      simp only [decide_eq_true_eq] at *
      exact le_trans hbc hab)
    (fun a b => by
      simp only [Bool.or_eq_true, decide_eq_true_eq]
      exact le_total b.2 a.2) l
  exact h.imp fun hab => of_decide_eq_true hab

/-- Pointwise suffix relation between two lists of pool lists. -/
theorem forall2_suffix_refl {α : Type} (l : List (List α)) :
    List.Forall₂ List.IsSuffix l l :=
  List.forall₂_same.mpr fun x _ => List.suffix_refl x

/-- The pointwise suffix relation is transitive. -/
theorem forall2_suffix_trans {α : Type} :
    ∀ {a b c : List (List α)}, List.Forall₂ List.IsSuffix a b →
      List.Forall₂ List.IsSuffix b c → List.Forall₂ List.IsSuffix a c := by
  intro a b c hab
  induction hab generalizing c with
  | nil =>
    intro hbc
    cases hbc
    exact .nil
  | @cons x y xs ys hxy _ ih =>
    intro hbc
    cases hbc with
    | cons h2 t2 => exact .cons (hxy.trans h2) (ih t2)

/-- Replacing one pool by its tail leaves every pool a suffix of what it
was. -/
theorem forall2_suffix_set {α : Type} :
    ∀ (l : List (List α)) (d : ℕ) (x : α) (rest : List α),
      l[d]? = some (x :: rest) → List.Forall₂ List.IsSuffix (l.set d rest) l := by
  intro l
  induction l with
  | nil =>
    intro d x rest h
    simp at h
  | cons p ps ih =>
    intro d x rest h
    cases d with
    | zero =>
      simp only [List.getElem?_cons_zero, Option.some.injEq] at h
      subst h
      exact .cons (List.suffix_cons x rest) (forall2_suffix_refl ps)
    | succ n =>
      simp only [List.getElem?_cons_succ] at h
      exact .cons (List.suffix_refl p) (ih n x rest h)

/-- Throughout the round-robin loop, every pool only loses elements from its
front: the final pools are pointwise suffixes of the pools the loop started
from. -/
theorem bsGo_pools_suffix (target : ℕ) :
    ∀ (fuel : ℕ) (pools : List (List (String × ℚ))) (idx : ℕ) (picked : List String),
      List.Forall₂ List.IsSuffix (Summarizer.bsGo target fuel pools idx picked).2 pools := by
  intro fuel
  induction fuel with
  | zero => intro pools idx picked; exact forall2_suffix_refl pools
  | succ n ih =>
    intro pools idx picked
    unfold Summarizer.bsGo
    by_cases hc : picked.length < target ∧ pools.any fun p => !p.isEmpty
    · rw [if_pos hc]
      rcases hmatch : pools[idx % pools.length]? with _ | pool
      · simp only [hmatch]
        by_cases hidx : 100000 < idx + 1
        · rw [if_pos hidx]
          exact forall2_suffix_refl pools
        · rw [if_neg hidx]
          exact ih pools (idx + 1) picked
      · rcases pool with _ | ⟨⟨s, sc⟩, rest⟩
        · simp only [hmatch]
          by_cases hidx : 100000 < idx + 1
          · rw [if_pos hidx]
            exact forall2_suffix_refl pools
          · rw [if_neg hidx]
            exact ih pools (idx + 1) picked
        · simp only [hmatch]
          have hset := forall2_suffix_set pools (idx % pools.length) (s, sc) rest hmatch
          by_cases hidx : 100000 < idx + 1
          · rw [if_pos hidx]
            exact hset
          · rw [if_neg hidx]
            exact forall2_suffix_trans
              (ih (pools.set (idx % pools.length) rest) (idx + 1) (picked ++ [s])) hset
    · rw [if_neg hc]
      exact forall2_suffix_refl pools

/-- The executive-summary loop never grows past 11 entries once the
accumulator is at most 9 entries long (each domain adds at most 2 entries and
the loop stops as soon as 10 are reached). -/
theorem execLoop_length_le (ranked : List (String × List (String × ℚ))) :
    ∀ (order : List String) (acc : List String), acc.length ≤ 9 →
      (execLoop ranked order acc).length ≤ 11 := by
  intro order
  induction order with
  | nil =>
    intro acc h
    unfold execLoop
    omega
  | cons dom rest ih =>
    intro acc h
    unfold execLoop
    have hp : ((((ranked.lookup dom).getD []).take 2).map
        fun p => dom ++ ": " ++ p.1).length ≤ 2 := by
      rw [List.length_map]
      exact le_trans (List.length_take_le 2 _) (le_refl 2)
    by_cases h10 : 10 ≤ (acc ++ (((ranked.lookup dom).getD []).take 2).map
        fun p => dom ++ ": " ++ p.1).length
    · simp only [if_pos h10]
      rw [List.length_append] at h10 ⊢
      omega
    · simp only [if_neg h10]
      refine ih _ ?_
      rw [List.length_append] at h10 ⊢
      omega

/-- Walking one pool can add at most the domain's remaining quota to the
canonical list: the canonical length plus the remaining quota never
increases. -/
theorem quotaInner_length_le (thr : ℚ) :
    ∀ (pool : List (String × ℚ)) (c : List String) (t : List (List String)) (q : ℕ),
      (V3.quotaInner thr pool c t q).1.length + (V3.quotaInner thr pool c t q).2.2 ≤
        c.length + q := by
  intro pool
  induction pool with
  | nil =>
    intro c t q
    simp [V3.quotaInner]
  | cons hd rest ih =>
    intro c t q
    obtain ⟨s, sc⟩ := hd
    unfold V3.quotaInner
    by_cases h1 : (V3.tokenize s).isEmpty = true
    · rw [if_pos h1]
      exact ih c t q
    · rw [if_neg h1]
      by_cases h2 : V3.pyListMax (t.map fun tk => V3.jaccard (V3.tokenize s) tk) ≤ thr ∧ 0 < q
      · rw [if_pos h2]
        have hrec := ih (c ++ [s]) (t ++ [V3.tokenize s]) (q - 1)
        simp only [List.length_append, List.length_singleton] at hrec
        have hq := h2.2
        omega
      · rw [if_neg h2]
        exact ih c t q

/-- Invariant of the inner dedup loop: the accepted token lists are exactly
the tokenizations of the accepted sentences, and the accepted sentences stay
pairwise dissimilar (Jaccard at most the threshold). -/
theorem quotaInner_inv (thr : ℚ) :
    ∀ (pool : List (String × ℚ)) (c : List String) (t : List (List String)) (q : ℕ),
      t = c.map V3.tokenize →
      c.Pairwise (fun a b => V3.jaccard (V3.tokenize a) (V3.tokenize b) ≤ thr) →
      (V3.quotaInner thr pool c t q).2.1 = (V3.quotaInner thr pool c t q).1.map V3.tokenize ∧
        (V3.quotaInner thr pool c t q).1.Pairwise
          (fun a b => V3.jaccard (V3.tokenize a) (V3.tokenize b) ≤ thr) := by
  intro pool
  induction pool with
  | nil =>
    intro c t q ht hp
    simp only [V3.quotaInner]
    exact ⟨ht, hp⟩
  | cons hd rest ih =>
    intro c t q ht hp
    obtain ⟨s, sc⟩ := hd
    unfold V3.quotaInner
    by_cases h1 : (V3.tokenize s).isEmpty = true
    · rw [if_pos h1]
      exact ih c t q ht hp
    · rw [if_neg h1]
      by_cases h2 : V3.pyListMax (t.map fun tk => V3.jaccard (V3.tokenize s) tk) ≤ thr ∧ 0 < q
      · rw [if_pos h2]
        refine ih (c ++ [s]) (t ++ [V3.tokenize s]) (q - 1) ?_ ?_
        · rw [ht, List.map_append, List.map_cons, List.map_nil]
        · rw [List.pairwise_append]
          refine ⟨hp, List.pairwise_singleton _ _, ?_⟩
          intro a ha b hb
          rw [List.mem_singleton] at hb
          rw [hb, V3.jaccard_comm]
          refine le_trans (le_pyListMax ?_) h2.1
          rw [ht]
          exact List.mem_map_of_mem (fun tk => V3.jaccard (V3.tokenize s) tk)
            (List.mem_map_of_mem V3.tokenize ha)
      · rw [if_neg h2]
        exact ih c t q ht hp

/-- Outer-loop bound: when the domains are distinct and every one of them
still holds the initial quota `q0`, the canonical list grows by at most
`q0` per domain. -/
theorem quotaOuter_length_le (thr : ℚ) (ranked : List (String × List (String × ℚ))) (q0 : ℕ) :
    ∀ (order : List String) (c : List String) (t : List (List String)) (quota : String → ℕ),
      order.Nodup → (∀ d ∈ order, quota d = q0) →
      (V3.quotaOuter thr ranked order c t quota).1.length ≤ c.length + order.length * q0 := by
  intro order
  induction order with
  | nil =>
    intro c t quota _ _
    simp [V3.quotaOuter]
  | cons dom rest ih =>
    intro c t quota hnd hq
    unfold V3.quotaOuter
    have hqd : quota dom = q0 := hq dom (List.mem_cons_self dom rest)
    have hinner := quotaInner_length_le thr ((ranked.lookup dom).getD []) c t (quota dom)
    have hrest := ih (V3.quotaInner thr ((ranked.lookup dom).getD []) c t (quota dom)).1
      (V3.quotaInner thr ((ranked.lookup dom).getD []) c t (quota dom)).2.1
      (fun d =>
        if d = dom then (V3.quotaInner thr ((ranked.lookup dom).getD []) c t (quota dom)).2.2
        else quota d)
      (List.Nodup.of_cons hnd) ?_
    · rw [List.length_cons]
      have : (V3.quotaInner thr ((ranked.lookup dom).getD []) c t (quota dom)).1.length ≤
          c.length + q0 := by omega
      calc (V3.quotaOuter thr ranked rest _ _ _).1.length ≤ _ := hrest
        _ ≤ c.length + (rest.length + 1) * q0 := by
            rw [Nat.succ_mul]
            omega
    · intro d hd
      have hne : d ≠ dom := by
        intro heq
        subst heq
        exact (List.nodup_cons.mp hnd).1 hd
      simp only [if_neg hne]
      exact hq d (List.mem_cons_of_mem dom hd)

/-- Invariant of the outer dedup loop: whatever the per-domain quotas do, the
canonical sentences stay pairwise dissimilar. -/
theorem quotaOuter_inv (thr : ℚ) (ranked : List (String × List (String × ℚ))) :
    ∀ (order : List String) (c : List String) (t : List (List String)) (quota : String → ℕ),
      t = c.map V3.tokenize →
      c.Pairwise (fun a b => V3.jaccard (V3.tokenize a) (V3.tokenize b) ≤ thr) →
      (V3.quotaOuter thr ranked order c t quota).2.1 =
          (V3.quotaOuter thr ranked order c t quota).1.map V3.tokenize ∧
        (V3.quotaOuter thr ranked order c t quota).1.Pairwise
          (fun a b => V3.jaccard (V3.tokenize a) (V3.tokenize b) ≤ thr) := by
  intro order
  induction order with
  | nil =>
    intro c t quota ht hp
    simp only [V3.quotaOuter]
    exact ⟨ht, hp⟩
  | cons dom rest ih =>
    intro c t quota ht hp
    unfold V3.quotaOuter
    have hi := quotaInner_inv thr ((ranked.lookup dom).getD []) c t (quota dom) ht hp
    exact ih _ _ _ hi.1 hi.2

/-- A successful date match starts with the two characters `20`. -/
theorem tryDate_take_two :
    ∀ (l : List Char) (d : String), tryDate l = some d → d.data.take 2 = ['2', '0'] := by
  intro l d h
  unfold tryDate at h
  split at h
  · split at h
    · rename_i hcond
      simp only [Bool.and_eq_true, beq_iff_eq] at hcond
      rw [Option.some.injEq] at h
      rw [← h]
      simp [hcond.1.1.1.1.1.1.1.1, hcond.1.1.1.1.1.1.1.2]
    · exact absurd h (by simp)
  · exact absurd h (by simp)

/-- Every date the scanner emits starts with the two characters `20`. -/
theorem scanGo_take_two :
    ∀ (fuel : ℕ) (cs : List Char) (b : Bool) (d : String),
      d ∈ scanGo fuel cs b → d.data.take 2 = ['2', '0'] := by
  intro fuel
  induction fuel with
  | zero =>
    intro cs b d hd
    simp [scanGo] at hd
  | succ n ih =>
    intro cs b d hd
    cases cs with
    | nil => simp [scanGo] at hd
    | cons c rest =>
      unfold scanGo at hd
      split at hd
      · rename_i d0 heq
        rcases List.mem_cons.mp hd with rfl | hd
        · rcases Bool.eq_false_or_eq_true b with hb | hb
          · rw [hb] at heq
            simp at heq
          · rw [hb] at heq
            simp only [Bool.false_eq_true, if_false] at heq
            exact tryDate_take_two _ _ heq
        · exact ih _ _ _ hd
      · exact ih _ _ _ hd

/-- The membership and shape of an element of the TF-IDF scored list: its
score is the specification's TF-IDF score. -/
theorem tfScored_score (sentences : List String) (p : String × ℚ)
    (hp : p ∈ V3.tfScored sentences) : p.2 = V3.tfidfScoreSpec sentences p.1 := by
  rw [V3.tfScored] at hp
  rcases List.mem_map.mp hp with ⟨q, hq, hpq⟩
  obtain ⟨a, b⟩ := q
  have hb : b = V3.tokenize a := mem_zip_map V3.tokenize sentences a b hq
  subst hb
  rw [← hpq]
  simp only
  rw [V3.tfidfScoreSpec]
  refine congrArg List.sum (List.map_congr_left fun t ht => ?_)
  rw [length_filter_map_eq V3.tokenize (fun toks => decide (t ∈ toks)) sentences]
  rfl

/-- Same statement for the ranker of `src/scripts/account_summarizer.py`. -/
theorem tfScoredOrb_score (sentences : List String) (p : String × ℚ)
    (hp : p ∈ Orbital.tfScored sentences) : p.2 = Orbital.tfidfScoreSpec sentences p.1 := by
  rw [Orbital.tfScored] at hp
  rcases List.mem_filterMap.mp hp with ⟨q, hq, hpq⟩
  obtain ⟨a, b⟩ := q
  have hb : b = Orbital.tokenize a := mem_zip_map Orbital.tokenize sentences a b hq
  subst hb
  by_cases hne : (Orbital.tokenize a).isEmpty = true
  · rw [if_pos hne] at hpq
    exact absurd hpq (by simp)
  · rw [if_neg hne, Option.some.injEq] at hpq
    rw [← hpq]
    simp only
    rw [Orbital.tfidfScoreSpec]
    refine congrArg List.sum (List.map_congr_left fun t ht => ?_)
    rw [length_filter_map_eq Orbital.tokenize (fun toks => decide (t ∈ toks)) sentences]
    rfl

/-- Every sentence the orbital ranker scores has a nonempty tokenization. -/
theorem tfScoredOrb_tokens_ne (sentences : List String) (p : String × ℚ)
    (hp : p ∈ Orbital.tfScored sentences) : Orbital.tokenize p.1 ≠ [] := by
  rw [Orbital.tfScored] at hp
  rcases List.mem_filterMap.mp hp with ⟨q, hq, hpq⟩
  obtain ⟨a, b⟩ := q
  have hb : b = Orbital.tokenize a := mem_zip_map Orbital.tokenize sentences a b hq
  subst hb
  by_cases hne : (Orbital.tokenize a).isEmpty = true
  · rw [if_pos hne] at hpq
    exact absurd hpq (by simp)
  · rw [if_neg hne, Option.some.injEq] at hpq
    have h1 : p.1 = a := by rw [← hpq]
    rw [h1]
    intro hcontra
    rw [hcontra] at hne
    exact hne rfl

/-- Tokens of the shared v3/main tokenizer contain no uppercase letter, avoid
the stop-words and have at least two characters. -/
theorem tokenize_props (text t : String) (h : t ∈ V3.tokenize text) :
    (∀ c ∈ t.data, isAsciiUpper c = false) ∧ t ∉ V3.STOPWORDS ∧ 1 < t.length := by
  rw [V3.tokenize] at h
  rcases List.mem_filter.mp h with ⟨hmem, hpred⟩
  rw [decide_eq_true_eq] at hpred
  refine ⟨?_, hpred.1, hpred.2⟩
  rcases List.mem_map.mp hmem with ⟨r, hr, hrt⟩
  have hchars : ∀ c ∈ r, isAsciiUpper c = false := by
    refine runsGo_forall V3.isTokenChar (fun c => isAsciiUpper c = false)
      (pyLowerStr text).data [] (by simp) ?_ r hr
    intro c hc _
    rw [pyLowerStr] at hc
    simp only [String.data] at hc
    rcases List.mem_map.mp hc with ⟨c0, _, hc0⟩
    rw [← hc0]
    exact isAsciiUpper_pyLower c0
  rw [← hrt]
  exact hchars

/-- Tokens of the orbital tokenizer contain no uppercase letter and avoid its
stop-words. -/
theorem tokenizeOrb_props (text t : String) (h : t ∈ Orbital.tokenize text) :
    (∀ c ∈ t.data, isAsciiUpper c = false) ∧ t ∉ Orbital.STOPWORDS := by
  rw [Orbital.tokenize] at h
  rcases List.mem_filter.mp h with ⟨hmem, hpred⟩
  rw [decide_eq_true_eq] at hpred
  refine ⟨?_, hpred⟩
  rcases List.mem_map.mp hmem with ⟨r, _, hrt⟩
  rw [← hrt]
  intro c hc
  rw [pyLowerStr] at hc
  simp only [String.data] at hc
  rcases List.mem_map.mp hc with ⟨c0, _, hc0⟩
  rw [← hc0]
  exact isAsciiUpper_pyLower c0

/-! ## Claims -/

/-- C1 (amended): under the equal-quota policy the per-theme quota is the
integer division `target // len(order)` — `⌊10/4⌋ = 2` in the scenario, within
the claimed `⌈10/4⌉` ceiling — and the canonical list can never total more
than `len(order) * (target // len(order))` sentences (8, not 10, in the
scenario): the remainder of the integer division is never allocated. -/
theorem C1_equal_quota_total_bound (order : List String)
    (ranked : List (String × List (String × ℚ))) (target : ℕ) (thr : ℚ)
    (h : order.Nodup) :
    (V3.equalQuotaCanonical order ranked target thr).length ≤
      order.length * (target / order.length) := by
  rw [V3.equalQuotaCanonical]
  have h1 := quotaOuter_length_le thr ranked (target / order.length) order [] []
    (fun _ => target / order.length) h (fun _ _ => rfl)
  simp only [List.length_nil, Nat.zero_add] at h1
  have h2 : ((V3.quotaOuter thr ranked order [] []
      fun _ => target / order.length).1.take target).length ≤
      (V3.quotaOuter thr ranked order [] [] fun _ => target / order.length).1.length := by
    rw [List.length_take]
    exact min_le_right _ _
  exact le_trans h2 h1

/-- Witness for C1 at a concrete input: four distinct domains. -/
theorem C1_equal_quota_total_bound_witness :
    List.Nodup ["A", "B", "C", "D"] ∧
      (V3.equalQuotaCanonical ["A", "B", "C", "D"] [] 10 (mkRat 7 10)).length ≤
        (["A", "B", "C", "D"] : List String).length *
          (10 / (["A", "B", "C", "D"] : List String).length) :=
  ⟨by decide, C1_equal_quota_total_bound ["A", "B", "C", "D"] [] 10 (mkRat 7 10) (by decide)⟩

set_option maxRecDepth 40000 in
/-- C1 counterexample to the claim as stated: four domains (three themes plus
the default bucket position), each holding 3 candidates, all twelve pairwise
dissimilar (Jaccard 0 ≤ 0.7), target 10 — every bucket has more than enough
deduplicated candidates, yet the canonical list totals 8, not 10. -/
theorem C1_counterexample :
    quotaDemoSents.Pairwise
        (fun a b => V3.jaccard (V3.tokenize a) (V3.tokenize b) ≤ mkRat 7 10) ∧
      (quotaDemoRanked.map fun p => p.2.length) = [3, 3, 3, 3] ∧
      (V3.equalQuotaCanonical ["A", "B", "C", "D"] quotaDemoRanked 10 (mkRat 7 10)).length = 8 :=
  ⟨by decide, by decide, by decide⟩

/-- C2 (amended): the pairwise-Jaccard-below-threshold invariant holds for the
equal-quota policy's canonical list (every pair of positions in the list the
v3 dedup loop produces, truncation included, has token-set Jaccard similarity
at most the configured threshold). -/
theorem C2_equal_quota_canonical_pairwise (order : List String)
    (ranked : List (String × List (String × ℚ))) (target : ℕ) (thr : ℚ) :
    (V3.equalQuotaCanonical order ranked target thr).Pairwise
      (fun a b => V3.jaccard (V3.tokenize a) (V3.tokenize b) ≤ thr) := by
  have h := (quotaOuter_inv thr ranked order [] [] (fun _ => target / order.length) rfl
    List.Pairwise.nil).2
  rw [V3.equalQuotaCanonical]
  exact h.sublist (List.take_sublist target _)

set_option maxRecDepth 40000 in
/-- C2 counterexample to the claim as stated: round-robin `balanced_sample`
performs no deduplication, so two pools holding the same sentence produce a
canonical list whose two entries have Jaccard similarity 1 > 0.7. -/
theorem C2_counterexample :
    Summarizer.balanced_sample
        [[("sporenet kernel runtime", 1)], [("sporenet kernel runtime", 1)]] 2 =
      ["sporenet kernel runtime", "sporenet kernel runtime"] ∧
      mkRat 7 10 < V3.jaccard (V3.tokenize "sporenet kernel runtime")
        (V3.tokenize "sporenet kernel runtime") :=
  ⟨by decide, by decide⟩

/-- C3: in TF-IDF mode every returned pair carries the score
`Σ_t term_count(t) * (1 + N / (1 + df(t)))` over the sentence's tokens (`N`
the bucket size, `df` the number of bucket sentences containing the token),
and the returned sequence — whatever truncation the caller applies — is in
non-increasing score order; for both `V3.rank_tfidf` and the orbital
`rank_sentences`. -/
theorem C3_tfidf_score_and_order (sentences : List String) (k : ℕ) :
    (∀ p ∈ (V3.rank_tfidf sentences).take k, p.2 = V3.tfidfScoreSpec sentences p.1) ∧
      ((V3.rank_tfidf sentences).take k).Pairwise (fun a b => b.2 ≤ a.2) ∧
      (∀ p ∈ (Orbital.rank_sentences sentences).take k,
        p.2 = Orbital.tfidfScoreSpec sentences p.1) ∧
      ((Orbital.rank_sentences sentences).take k).Pairwise (fun a b => b.2 ≤ a.2) := by
  refine ⟨?_, ?_, ?_, ?_⟩
  · intro p hp
    have hp2 := List.take_subset k _ hp
    rw [V3.rank_tfidf] at hp2
    by_cases he : sentences.isEmpty = true
    · rw [if_pos he] at hp2
      simp at hp2
    · rw [if_neg he, List.mem_mergeSort] at hp2
      exact tfScored_score sentences p hp2
  · by_cases he : sentences.isEmpty = true
    · rw [V3.rank_tfidf, if_pos he]
      simp
    · rw [V3.rank_tfidf, if_neg he]
      exact (mergeSort_desc_pairwise _).sublist (List.take_sublist k _)
  · intro p hp
    have hp2 := List.take_subset k _ hp
    rw [Orbital.rank_sentences, List.mem_mergeSort] at hp2
    exact tfScoredOrb_score sentences p hp2
  · rw [Orbital.rank_sentences]
    exact (mergeSort_desc_pairwise _).sublist (List.take_sublist k _)

/-- C4 (amended): the orbital ranker (`src/scripts/account_summarizer.py`)
excludes every sentence whose tokenization is empty — every sentence in its
ranked output has at least one extracted token; the v3 `rank_tfidf` and the
main term-frequency ranker instead keep such sentences with score 0. -/
theorem C4_orbital_ranker_excludes_tokenless (sentences : List String) (s : String)
    (h : s ∈ (Orbital.rank_sentences sentences).map Prod.fst) :
    Orbital.tokenize s ≠ [] := by
  rcases List.mem_map.mp h with ⟨p, hp, hps⟩
  rw [Orbital.rank_sentences, List.mem_mergeSort] at hp
  rw [← hps]
  exact tfScoredOrb_tokens_ne sentences p hp

/-- Witness for C4 at a concrete input: a sentence with four tokens appears in
the orbital ranked output and indeed has a nonempty tokenization. -/
theorem C4_orbital_ranker_excludes_tokenless_witness :
    "hello linux world zz" ∈
        (Orbital.rank_sentences ["hello linux world zz"]).map Prod.fst ∧
      Orbital.tokenize "hello linux world zz" ≠ [] := by
  have htok : Orbital.tokenize "hello linux world zz" = ["hello", "linux", "world", "zz"] := by
    decide
  have hmem : "hello linux world zz" ∈
      (Orbital.rank_sentences ["hello linux world zz"]).map Prod.fst := by
    simp [Orbital.rank_sentences, Orbital.tfScored, htok, List.filterMap_cons]
  exact ⟨hmem, C4_orbital_ranker_excludes_tokenless ["hello linux world zz"] _ hmem⟩

/-- C4 counterexample to the claim as stated: a sentence with zero extracted
tokens is present in the ranked output of the v3 TF-IDF ranker and of the
main term-frequency ranker, with score 0. -/
theorem C4_counterexample :
    V3.rank_tfidf ["?????????? !!"] = [("?????????? !!", 0)] ∧
      V3.tokenize "?????????? !!" = [] ∧
      Summarizer.rank_sentences ["?????????? !!"] 20 = [("?????????? !!", 0)] := by
  refine ⟨?_, by decide, by decide⟩
  have htok : V3.tokenize "?????????? !!" = [] := by decide
  simp [V3.rank_tfidf, V3.tfScored, htok]

/-- C5 (amended): every token of the v3/main tokenizer is free of uppercase
letters, is not a stop-word and is at least two characters long; every token
of the orbital tokenizer (`src/scripts/account_summarizer.py`) is free of
uppercase letters and is not one of its stop-words, but that tokenizer keeps
single-character tokens. -/
theorem C5_tokens_lowercase_nonstop (text : String) :
    (∀ t ∈ V3.tokenize text,
        (∀ c ∈ t.data, isAsciiUpper c = false) ∧ t ∉ V3.STOPWORDS ∧ 1 < t.length) ∧
      ∀ t ∈ Orbital.tokenize text,
        (∀ c ∈ t.data, isAsciiUpper c = false) ∧ t ∉ Orbital.STOPWORDS :=
  ⟨fun t ht => tokenize_props text t ht, fun t ht => tokenizeOrb_props text t ht⟩

/-- C5 counterexample to the claim as stated: the orbital tokenizer returns
the single-character token `x`. -/
theorem C5_counterexample :
    "x" ∈ Orbital.tokenize "x" ∧ ¬(1 < ("x" : String).length) := by
  decide

/-- C6 (amended): the executive summary takes the top (at most) 2 ranked
sentences per theme in the fixed theme order; the v3 report caps the list at
10 entries, while the main `build_report` only stops adding themes once 10
entries are reached, so its list is bounded by 11 and can exceed 10. -/
theorem C6_exec_summary_bounds (order : List String)
    (ranked : List (String × List (String × ℚ))) :
    (V3.exec_points order ranked).length ≤ 10 ∧
      (Summarizer.exec_points order ranked).length ≤ 11 := by
  constructor
  · rw [V3.exec_points, List.length_take]
    exact min_le_left _ _
  · exact execLoop_length_le ranked order [] (by simp)

set_option maxRecDepth 40000 in
/-- C6 counterexample to the claim as stated: with six domains whose pools
hold 2, 2, 2, 2, 1 and 2 ranked sentences, the main `build_report` executive
summary reaches 11 entries, more than the claimed cap of 10. -/
theorem C6_counterexample :
    (Summarizer.exec_points execDemoOrder execDemoRanked).length = 11 ∧
      10 < (Summarizer.exec_points execDemoOrder execDemoRanked).length :=
  ⟨by decide, by decide⟩

/-- C7 (amended): an unreadable file (`OSError`) is turned into the empty
string by all three loaders, and an undecodable file by the v3 and main
loaders — the total pipeline functions then complete with that file
contributing nothing to the corpus; but the loader of
`src/scripts/account_summarizer.py` catches only `OSError`, so there an
undecodable file raises out of the loader. -/
theorem C7_unreadable_file_empty_text :
    V3.load_text .osError = "" ∧ V3.load_text .decodeError = "" ∧
      Summarizer.load_text_from_file .osError = "" ∧
      Summarizer.load_text_from_file .decodeError = "" ∧
      Orbital.load_text .osError = some "" ∧
      ∀ ts us : List String,
        V3.corpus (ts ++ [V3.load_text .osError] ++ us) = V3.corpus (ts ++ us) := by
  refine ⟨rfl, rfl, rfl, rfl, rfl, ?_⟩
  intro ts us
  simp [V3.load_text, V3.corpus, List.filter_append, List.filter_cons]

/-- C7 counterexample to the claim as stated: an undecodable file makes the
loader of `src/scripts/account_summarizer.py` raise (it returns no string at
all) instead of returning the empty string, aborting that pipeline run. -/
theorem C7_counterexample :
    Orbital.load_text .decodeError = none ∧
      (none : Option String) ≠ some "" := by
  exact ⟨rfl, by simp⟩

/-- C8 (amended): `balanced_sample` consumes the pool lists passed to it from
the front — after the call every pool list is a suffix of its value before
the call (`build_report` protects its own mapping by passing a fresh copy). -/
theorem C8_balanced_sample_pools_suffix (pools : List (List (String × ℚ))) (target : ℕ) :
    List.Forall₂ List.IsSuffix (Summarizer.balancedSamplePools pools target) pools :=
  bsGo_pools_suffix target 100001 pools 0 []

set_option maxRecDepth 40000 in
/-- C8 counterexample to the claim as stated: a pool passed to
`balanced_sample` is emptied by the call, so the mapping's lists are not equal
to their values before the call. -/
theorem C8_counterexample :
    Summarizer.balancedSamplePools [[("alpha beta gamma delta", 1)]] 1 = [[]] ∧
      ([[]] : List (List (String × ℚ))) ≠ [[("alpha beta gamma delta", 1)]] :=
  ⟨by decide, by decide⟩

/-- C9 (amended): only the v3 segmenter suppresses splits after
abbreviations, and only for following segments that pass the 10-character
minimum: when the previously kept sentence ends in a known abbreviation and
the next stripped segment is at least 10 characters long, that segment is
appended to the previous sentence (not emitted as a new sentence, not
dropped) and the loop continues; the segmenters of `src/account_summarizer.py`
and `src/scripts/account_summarizer.py` never merge. -/
theorem C9_v3_abbrev_merge (out : List String) (seg : String) (rest : List String)
    (h1 : out ≠ []) (h2 : V3.lastWordLower (out.getLastD "") ∈ V3.ABBREV)
    (h3 : 10 ≤ (pyStrip seg).length) :
    List.foldl V3.mergeStep out (seg :: rest) =
      List.foldl V3.mergeStep
        (out.dropLast ++ [out.getLastD "" ++ " " ++ pyStrip seg]) rest := by
  rw [List.foldl_cons]
  congr 1
  unfold V3.mergeStep
  rw [if_neg (by omega)]
  cases out with
  | nil => exact absurd rfl h1
  | cons o os => rw [if_pos h2]

/-- Witness for C9 at a concrete input: a kept sentence ending in `mr.`
followed by a long enough segment. -/
theorem C9_v3_abbrev_merge_witness :
    (["Hello ask sir mr."] ≠ ([] : List String)) ∧
      List.foldl V3.mergeStep ["Hello ask sir mr."] ["Bob smith now yes."] =
        List.foldl V3.mergeStep
          (["Hello ask sir mr."].dropLast ++
            [["Hello ask sir mr."].getLastD "" ++ " " ++ pyStrip "Bob smith now yes."]) [] :=
  ⟨by decide, C9_v3_abbrev_merge ["Hello ask sir mr."] "Bob smith now yes." []
    (by decide) (by decide) (by decide)⟩

set_option maxRecDepth 40000 in
/-- C9 counterexample to the claim as stated: the segmenter of
`src/account_summarizer.py` splits right after `e.g.` — a token in the known
abbreviation list — emitting the following segment as a new sentence instead
of appending it. -/
theorem C9_counterexample :
    Summarizer.split_sentences "See notes e.g. Additional details follow here." =
        ["See notes e.g.", "Additional details follow here."] ∧
      V3.lastWordLower "See notes e.g." ∈ V3.ABBREV :=
  ⟨by decide, by decide⟩

/-- C10: the date extractor only returns dates whose four-digit year starts
with `20`: every extracted date string starts with the characters `2`, `0`,
and a text containing only the well-formed dates `1999-03-05` and
`2112-01-01` yields no extraction at all. -/
theorem C10_dates_year_20xx (text : String) :
    (∀ d ∈ extract_dates text, d.data.take 2 = ['2', '0']) ∧
      extract_dates "Launched on 1999-03-05 or 2112-01-01." = [] := by
  refine ⟨?_, by decide⟩
  intro d hd
  exact scanGo_take_two text.data.length text.data false d hd

end SporeNet
